import Mathlib

/-!
Shallow embedding of the windowing engine of a sectioned, fixed-row-height
list view.  The embedded functions mirror, definition by definition, the
methods of FixedHeightListViewDataSource and the window arithmetic of
FixedHeightWindowedListView from the sources.  JavaScript numbers are
modelled as Int where values can go negative (scroll offsets, window
arithmetic) and as Nat where the source only ever produces non-negative
values (row indices stored in the lookup table, pixel heights).  Fallible
code paths (object lookups that can yield undefined, array reads out of
range) are modelled with Option.
-/

namespace AtoZ

/-- A row of the flattened data source: either a section header row
(carrying its section id) or a cell row.  Cell payloads are opaque; the
model identifies a cell by its section id and its position inside the
section.  Section ids are assumed to be distinct non-empty strings, as
produced by Object.keys on the data blob object. -/
inductive Row where
  | header (sectionId : String)
  | cell (sectionId : String) (idx : Nat)
deriving DecidableEq

/-- One entry of the per-section lookup table built by
cloneWithCellsAndSections.  The range field of the source, a two element
array, is split into rangeStart and rangeEnd. -/
structure SectionEntry where
  count : Nat
  rangeStart : Nat
  rangeEnd : Nat
  height : Nat
  startY : Nat
  endY : Nat
  cellHeight : Nat
  sectionHeaderHeight : Nat
  sectionId : String
deriving DecidableEq

/-- The cell rows contributed by one section of the data blob. -/
def cellsFor (sectionId : String) (n : Nat) : List Row :=
  (List.range n).map (Row.cell sectionId)

/-- The flattened dataSource array built by cloneWithCellsAndSections:
for each section a header row followed by its cell rows. -/
def buildDataSource : List (String × Nat) → List Row
  | [] => []
  | (sectionId, cnt) :: rest =>
      Row.header sectionId :: (cellsFor sectionId cnt ++ buildDataSource rest)

/-- The lookup entry produced for one section by the reduce in
cloneWithCellsAndSections: count factors in the section header, the row
range spans the header and the cells, the pixel interval starts at the
accumulated height and extends by the section height. -/
def mkEntry (hH cH : String → Nat) (sectionId : String) (cnt nextRow cum : Nat) : SectionEntry :=
  ⟨cnt + 1, nextRow, nextRow + cnt, hH sectionId + cH sectionId * cnt,
    cum, cum + (hH sectionId + cH sectionId * cnt),
    cH sectionId, hH sectionId, sectionId⟩

/-- The lookup table built by the reduce in cloneWithCellsAndSections.
The source threads lastRow (starting at -1) and cumulativeHeight
(starting at 0) through the fold; here nextRow stands for lastRow + 1, so
the source expression range = [lastRow + 1, lastRow + 1 + count] becomes
[nextRow, nextRow + count]. -/
def buildLookup (hH cH : String → Nat) : List (String × Nat) → Nat → Nat → List SectionEntry
  | [], _, _ => []
  | (sectionId, cnt) :: rest, nextRow, cum =>
      mkEntry hH cH sectionId cnt nextRow cum ::
        buildLookup hH cH rest (nextRow + cnt + 1) (cum + (hH sectionId + cH sectionId * cnt))

/-- The state of a FixedHeightListViewDataSource: the flattened row array
and the per-section lookup table. -/
structure DataSource where
  dataSource : List Row
  lookup : List SectionEntry

/-- cloneWithCellsAndSections: build the data source from a blob mapping
section ids to cell counts (cell payloads are opaque, only their number
matters for the geometry), with the two height callbacks. -/
def cloneWithCellsAndSections (hH cH : String → Nat) (blob : List (String × Nat)) : DataSource :=
  ⟨buildDataSource blob, buildLookup hH cH blob 0 0⟩

/-- getRowCount: length of the dataSource array. -/
def DataSource.getRowCount (ds : DataSource) : Nat :=
  ds.dataSource.length

/-- getHeightBeforeRow: fold over the lookup table in insertion order; a
section containing i strictly after its header contributes its header
height plus (i - 1 - rangeStart) cell heights, a section entirely before
i contributes its full height. -/
def DataSource.getHeightBeforeRow (ds : DataSource) (i : Nat) : Nat :=
  ds.lookup.foldl
    (fun height s =>
      if s.rangeStart < i ∧ i ≤ s.rangeEnd then
        height + s.sectionHeaderHeight + (i - 1 - s.rangeStart) * s.cellHeight
      else if s.rangeStart < i then
        height + s.height
      else height)
    0

/-- getTotalHeight: endY of the last lookup entry, 0 for an empty table. -/
def DataSource.getTotalHeight (ds : DataSource) : Nat :=
  match ds.lookup.getLast? with
  | some s => s.endY
  | none => 0

/-- getRowAtHeight: clamp negative offsets to row 0 and offsets beyond the
total height to the last row (the source writes max(getRowCount() - 1, 0),
which truncated Nat subtraction reproduces); otherwise linearly scan the
lookup table for the first section whose closed interval [startY, endY]
contains the offset and resolve inside it, using floor division for the
cell offset.  The none case models the undefined-property crash the
source would hit if no section matched. -/
def DataSource.getRowAtHeight (ds : DataSource) (scrollY : Int) : Option Nat :=
  if scrollY < 0 then some 0
  else if scrollY > (ds.getTotalHeight : Int) then some (ds.getRowCount - 1)
  else
    match ds.lookup.find? (fun s =>
        decide ((s.startY : Int) ≤ scrollY) && decide (scrollY ≤ (s.endY : Int))) with
    | none => none
    | some s =>
        let relativeY := scrollY - (s.startY : Int)
        if relativeY ≤ (s.sectionHeaderHeight : Int) then some s.rangeStart
        else some (s.rangeStart + (relativeY - (s.sectionHeaderHeight : Int)).toNat / s.cellHeight)

/-- computeVisibleRows: firstVisible is the row at scrollY, lastVisible is
the row at scrollY + viewportHeight plus one. -/
def DataSource.computeVisibleRows (ds : DataSource) (scrollY viewportHeight : Int) : Option (Nat × Nat) :=
  match ds.getRowAtHeight scrollY, ds.getRowAtHeight (scrollY + viewportHeight) with
  | some firstVisible, some lastVisible => some (firstVisible, lastVisible + 1)
  | _, _ => none

/-- getRowData: plain array indexing; out-of-range indices (negative or
at least the length) yield undefined, modelled as none. -/
def DataSource.getRowData (ds : DataSource) (i : Int) : Option Row :=
  if i < 0 then none else ds.dataSource.get? i.toNat

/-- getHeightBetweenRows: the first component records whether the
reversed-bounds warning (console.warn) was emitted; the difference of
offsets is returned in either case. -/
def DataSource.getHeightBetweenRows (ds : DataSource) (i ii : Nat) : Bool × Int :=
  (decide (ii < i),
    (ds.getHeightBeforeRow ii : Int) - (ds.getHeightBeforeRow (i + 1) : Int))

/-- getParentSection: first lookup entry whose row range contains i. -/
def DataSource.getParentSection (ds : DataSource) (i : Nat) : Option SectionEntry :=
  ds.lookup.find? (fun s => decide (s.rangeStart ≤ i) && decide (i ≤ s.rangeEnd))

/-- getCellHeight: cell height of the parent section, undefined (none)
when there is no parent section. -/
def DataSource.getCellHeight (ds : DataSource) (i : Nat) : Option Nat :=
  (ds.getParentSection i).map (fun s => s.cellHeight)

/-- getSectionHeaderHeight: header height of the lookup entry with the
given section id; the source indexes the lookup object directly and hence
crashes on an unknown id, modelled as none. -/
def DataSource.getSectionHeaderHeight (ds : DataSource) (sectionId : String) : Option Nat :=
  (ds.lookup.find? (fun s => s.sectionId == sectionId)).map (fun s => s.sectionHeaderHeight)

/-- getRowHeight: header rows use their section header height, anything
else (cell rows, and out-of-range reads yielding undefined) falls through
to getCellHeight. -/
def DataSource.getRowHeight (ds : DataSource) (i : Nat) : Option Nat :=
  match ds.dataSource.get? i with
  | some (Row.header sectionId) => ds.getSectionHeaderHeight sectionId
  | _ => ds.getCellHeight i

/-- getHeightAfterRow: total height minus the height before row i minus
the height of row i; undefined when the row height is. -/
def DataSource.getHeightAfterRow (ds : DataSource) (i : Nat) : Option Int :=
  (ds.getRowHeight i).map
    (fun rh => (ds.getTotalHeight : Int) - (ds.getHeightBeforeRow i : Int) - (rh : Int))

/-- hasSection: the lookup object has a (truthy) entry for the id. -/
def DataSource.hasSection (ds : DataSource) (sectionId : String) : Bool :=
  (ds.lookup.find? (fun s => s.sectionId == sectionId)).isSome

/-- getFirstRowOfSection: first row index and starting pixel offset of the
section; the source crashes on an unknown id, modelled as none. -/
def DataSource.getFirstRowOfSection (ds : DataSource) (sectionId : String) : Option (Nat × Nat) :=
  (ds.lookup.find? (fun s => s.sectionId == sectionId)).map
    (fun s => (s.rangeStart, s.startY))

/-- Scroll direction as derived by the window controller. -/
inductive ScrollDirection where
  | down
  | up
deriving DecidableEq

/-- The options record passed to computeRowsToRender. -/
structure ComputeOptions where
  scrollDirection : ScrollDirection
  firstVisible : Int
  lastVisible : Int
  firstRendered : Int
  lastRendered : Int
  pageSize : Int
  maxNumToRender : Int
  numToRenderAhead : Int
  numToRenderBehind : Int
  totalRows : Int
deriving DecidableEq

/-- The record returned by computeRowsToRender. -/
structure WindowResult where
  firstRow : Int
  lastRow : Int
  targetFirstRow : Int
  targetLastRow : Int
deriving DecidableEq

/-- The private helper computeFirstRow of the data source.  The lastRow
argument is only read in the down branch; in the source the up-direction
call site simply does not supply it. -/
def computeFirstRow (o : ComputeOptions) (lastRow : Int) : Int × Int :=
  match o.scrollDirection with
  | ScrollDirection.down =>
      let firstRow :=
        max 0 (max (o.firstVisible - o.numToRenderBehind) (lastRow - o.maxNumToRender))
      (firstRow, firstRow)
  | ScrollDirection.up =>
      let targetFirstRow := max 0 (o.firstVisible - o.numToRenderAhead + o.numToRenderBehind)
      (max targetFirstRow (o.firstRendered - o.pageSize), targetFirstRow)

/-- The private helper computeLastRow of the data source, returning the
pair (lastRow, targetLastRow).  The firstRow argument is only read in the
up branch; in the source the down-direction call site does not supply it.
The numRendered argument is only read in the down branch. -/
def computeLastRow (o : ComputeOptions) (firstRow numRendered : Int) : Int × Int :=
  match o.scrollDirection with
  | ScrollDirection.down =>
      let targetLastRow :=
        min (o.totalRows - 1)
          (min (o.lastVisible + o.numToRenderAhead - o.numToRenderBehind)
            (o.firstVisible + numRendered + o.numToRenderAhead - o.numToRenderBehind))
      (min targetLastRow (o.lastRendered + o.pageSize), targetLastRow)
  | ScrollDirection.up =>
      let numToBeRendered := o.lastRendered - firstRow
      if numToBeRendered > o.maxNumToRender then
        (o.lastRendered - (numToBeRendered - o.maxNumToRender),
          o.lastRendered - (numToBeRendered - o.maxNumToRender))
      else (o.lastRendered, o.lastRendered)

/-- computeRowsToRender: checks the configuration invariant (the source
throws when numToRenderAhead is not below maxNumToRender, modelled as
none), then computes the leading edge first and the trailing edge second
according to the scroll direction.  The placeholder 0 arguments stand for
the fields the source leaves undefined at the respective call site; the
helpers never read them in those branches. -/
def computeRowsToRender (o : ComputeOptions) : Option WindowResult :=
  if o.numToRenderAhead < o.maxNumToRender then
    let numRendered := o.lastRendered - o.firstRendered + 1
    match o.scrollDirection with
    | ScrollDirection.down =>
        let lastPair := computeLastRow o 0 numRendered
        let firstPair := computeFirstRow o lastPair.1
        some ⟨firstPair.1, lastPair.1, firstPair.2, lastPair.2⟩
    | ScrollDirection.up =>
        let firstPair := computeFirstRow o 0
        let lastPair := computeLastRow o firstPair.1 numRendered
        some ⟨firstPair.1, lastPair.1, firstPair.2, lastPair.2⟩
  else none

/-- The effect of a successful scrollToSectionBuffered call: the buffer
window committed via setState and the offset the viewport is moved to,
together with the animated flag of the scrollTo call. -/
structure JumpResult where
  bufferFirstRow : Int
  bufferLastRow : Int
  scrollTargetY : Nat
  animated : Bool
deriving DecidableEq

/-- scrollToSectionBuffered of the list view: when not already scrolling
to a section and the section exists, compute the buffer window from the
first row of the section and initialNumToRender (clamped to the end of
the list, with the first row pulled back when the window ends exactly at
the last row of the list) and move the viewport to the section start
without animation.  Otherwise (busy, or unknown section) the request only
updates nextSectionToScrollTo, modelled as none. -/
def DataSource.scrollToSectionBuffered (ds : DataSource) (isScrollingToSection : Bool)
    (initialNumToRender : Int) (sectionId : String) : Option JumpResult :=
  if !isScrollingToSection && ds.hasSection sectionId then
    match ds.getFirstRowOfSection sectionId with
    | some (row, startY) =>
        let lastRow : Int := (ds.getRowCount : Int) - 1
        let windowLastRow : Int := min lastRow ((row : Int) + initialNumToRender)
        let windowFirstRow : Int :=
          if windowLastRow - lastRow = 0 then max 0 (windowLastRow - initialNumToRender)
          else (row : Int)
        some ⟨windowFirstRow, windowLastRow, startY, false⟩
    | none => none
  else none

/-- The initial row window committed by the list view constructor:
firstRow 0 and lastRow the minimum of getRowCount() - 1 and
initialNumToRender. -/
def DataSource.initialWindow (ds : DataSource) (initialNumToRender : Int) : Int × Int :=
  (0, min ((ds.getRowCount : Int) - 1) initialNumToRender)

/-- Total number of rows (headers plus cells) described by a blob. -/
def rowsLen : List (String × Nat) → Nat
  | [] => 0
  | (_, cnt) :: rest => cnt + 1 + rowsLen rest

/-- Total pixel height described by a blob under the two height
callbacks. -/
def blobHeight (hH cH : String → Nat) : List (String × Nat) → Nat
  | [] => 0
  | (sectionId, cnt) :: rest => hH sectionId + cH sectionId * cnt + blobHeight hH cH rest

def sidA : String := "A"

def sidB : String := "B"

/-- Header height callback of the worked example: every header is 20
pixels tall. -/
def exampleHeaderHeight : String → Nat := fun _ => 20

/-- Cell height callback of the worked example: every cell is 50 pixels
tall. -/
def exampleCellHeight : String → Nat := fun _ => 50

/-- The worked example blob: section A with 3 cells, section B with 2
cells. -/
def exampleBlob : List (String × Nat) := [(sidA, 3), (sidB, 2)]

/-- The data source of the worked example. -/
def exampleDS : DataSource :=
  cloneWithCellsAndSections exampleHeaderHeight exampleCellHeight exampleBlob

/-- A longer data source (one section with 99 cells, 100 rows in total)
used to exercise the initial window without end-of-list clamping. -/
def exampleDS100 : DataSource :=
  cloneWithCellsAndSections exampleHeaderHeight exampleCellHeight [(sidA, 99)]

/-- Helper: a cons cell keeps the getLast? of its nonempty tail. -/
theorem getLast?_cons_of_ne {α : Type} (a : α) (l : List α) (h : l ≠ []) :
    (a :: l).getLast? = l.getLast? := by
  cases l with
  | nil => exact absurd rfl h
  | cons b t => exact List.getLast?_cons_cons

/-- Helper: find? succeeds as soon as some element satisfies the
predicate. -/
theorem find?_isSome_of_exists {α : Type} (p : α → Bool) :
    ∀ l : List α, (∃ x ∈ l, p x = true) → (l.find? p).isSome := by
  intro l
  induction l with
  | nil => rintro ⟨x, hx, _⟩; simp at hx
  | cons a t ih =>
    rintro ⟨x, hx, hpx⟩
    by_cases hpa : p a = true
    · simp [List.find?_cons_of_pos _ hpa]
    · rw [List.find?_cons_of_neg _ hpa]
      rcases List.mem_cons.mp hx with rfl | hx2
      · exact absurd hpx hpa
      · exact ih ⟨x, hx2, hpx⟩

/-- Helper: find? returns exactly the element at index k when every
earlier element fails the predicate and the element at k satisfies
it. -/
theorem find?_eq_of_earlier_false {α : Type} (p : α → Bool) :
    ∀ (l : List α) (k : Nat) (a : α),
      l.get? k = some a →
      (∀ j b, j < k → l.get? j = some b → p b = false) →
      p a = true →
      l.find? p = some a := by
  intro l
  induction l with
  | nil => intro k a h _ _; simp at h
  | cons x t ih =>
    intro k a hk hearlier hpa
    cases k with
    | zero =>
      simp only [List.get?_cons_zero, Option.some.injEq] at hk
      subst hk
      exact List.find?_cons_of_pos _ hpa
    | succ k =>
      have hx : p x = false := hearlier 0 x (Nat.succ_pos k) rfl
      rw [List.find?_cons_of_neg _ (by simp [hx])]
      exact ih k a (by simpa using hk)
        (fun j b hj hjb => hearlier (j + 1) b (by omega) (by simpa using hjb)) hpa

/-- Structural facts about every entry of the lookup table: its pixel
interval and row range are mutually consistent, it lies at or after the
fold accumulators, and it stays inside the row and pixel totals of the
blob. -/
theorem buildLookup_entry (hH cH : String → Nat) :
    ∀ (blob : List (String × Nat)) (nextRow cum : Nat) (s : SectionEntry),
      s ∈ buildLookup hH cH blob nextRow cum →
      s.endY = s.startY + s.height ∧
      s.height = s.sectionHeaderHeight + s.cellHeight * (s.rangeEnd - s.rangeStart) ∧
      s.rangeStart ≤ s.rangeEnd ∧
      nextRow ≤ s.rangeStart ∧ s.rangeEnd < nextRow + rowsLen blob ∧
      cum ≤ s.startY ∧ s.endY ≤ cum + blobHeight hH cH blob := by
  intro blob
  induction blob with
  | nil => intro nextRow cum s hs; simp [buildLookup] at hs
  | cons p rest ih =>
    rcases p with ⟨sid, cnt⟩
    intro nextRow cum s hs
    rcases List.mem_cons.mp hs with rfl | hs2
    · refine ⟨rfl, ?_, ?_, ?_, ?_, ?_, ?_⟩ <;>
        simp [mkEntry, rowsLen, blobHeight] <;> omega
    · obtain ⟨h1, h2, h3, h4, h5, h6, h7⟩ :=
        ih (nextRow + cnt + 1) (cum + (hH sid + cH sid * cnt)) s hs2
      refine ⟨h1, h2, h3, by omega, ?_, by omega, ?_⟩ <;>
        simp [rowsLen, blobHeight] <;> omega

/-- The last entry of a nonempty lookup table ends at the accumulated
height plus the total pixel height of the blob. -/
theorem buildLookup_getLast_endY (hH cH : String → Nat) :
    ∀ (blob : List (String × Nat)) (nextRow cum : Nat),
      blob ≠ [] →
      ∃ s, (buildLookup hH cH blob nextRow cum).getLast? = some s ∧
        s.endY = cum + blobHeight hH cH blob := by
  intro blob
  induction blob with
  | nil => intro _ _ h; exact absurd rfl h
  | cons p rest ih =>
    rcases p with ⟨sid, cnt⟩
    intro nextRow cum _
    cases rest with
    | nil =>
      refine ⟨mkEntry hH cH sid cnt nextRow cum, rfl, ?_⟩
      simp [mkEntry, blobHeight]
    | cons q rest2 =>
      obtain ⟨s, hs, he⟩ :=
        ih (nextRow + cnt + 1) (cum + (hH sid + cH sid * cnt)) (by simp)
      refine ⟨s, ?_, ?_⟩
      · rw [show buildLookup hH cH ((sid, cnt) :: q :: rest2) nextRow cum =
            mkEntry hH cH sid cnt nextRow cum ::
              buildLookup hH cH (q :: rest2) (nextRow + cnt + 1)
                (cum + (hH sid + cH sid * cnt)) from rfl]
        rw [getLast?_cons_of_ne _ _ (by rcases q with ⟨sid2, cnt2⟩; simp [buildLookup])]
        exact hs
      · rw [he]; simp [blobHeight]; omega

/-- The total height of a built data source is the total pixel height of
its blob. -/
theorem getTotalHeight_clone (hH cH : String → Nat) (blob : List (String × Nat)) :
    (cloneWithCellsAndSections hH cH blob).getTotalHeight = blobHeight hH cH blob := by
  cases blob with
  | nil => rfl
  | cons p rest =>
    obtain ⟨s, hs, he⟩ := buildLookup_getLast_endY hH cH (p :: rest) 0 0 (by simp)
    simp [cloneWithCellsAndSections, DataSource.getTotalHeight, hs, he]

/-- The flattened row array of a blob has rowsLen blob entries. -/
theorem buildDataSource_length : ∀ blob : List (String × Nat),
    (buildDataSource blob).length = rowsLen blob := by
  intro blob
  induction blob with
  | nil => rfl
  | cons p rest ih =>
    rcases p with ⟨sid, cnt⟩
    simp [buildDataSource, cellsFor, rowsLen, ih]
    omega

/-- The row count of a built data source is the row total of its
blob. -/
theorem getRowCount_clone (hH cH : String → Nat) (blob : List (String × Nat)) :
    (cloneWithCellsAndSections hH cH blob).getRowCount = rowsLen blob :=
  buildDataSource_length blob

/-- A nonempty blob yields at least one row. -/
theorem rowsLen_pos (blob : List (String × Nat)) (h : blob ≠ []) : 1 ≤ rowsLen blob := by
  cases blob with
  | nil => exact absurd rfl h
  | cons p rest => rcases p with ⟨sid, cnt⟩; simp [rowsLen]; omega

/-- Coverage: for any offset between the accumulated height and the end
of the blob, the linear scan of the lookup table finds a section whose
closed pixel interval contains the offset. -/
theorem buildLookup_find?_cover (hH cH : String → Nat) (y : Int) :
    ∀ (blob : List (String × Nat)) (nextRow cum : Nat),
      blob ≠ [] → (cum : Int) ≤ y → y ≤ ((cum + blobHeight hH cH blob : Nat) : Int) →
      ∃ s, (buildLookup hH cH blob nextRow cum).find?
          (fun t => decide ((t.startY : Int) ≤ y) && decide (y ≤ (t.endY : Int))) = some s ∧
        s ∈ buildLookup hH cH blob nextRow cum ∧
        (s.startY : Int) ≤ y ∧ y ≤ (s.endY : Int) := by
  intro blob
  induction blob with
  | nil => intro _ _ h; exact absurd rfl h
  | cons p rest ih =>
    rcases p with ⟨sid, cnt⟩
    intro nextRow cum _ hlo hhi
    by_cases hy : y ≤ ((cum + (hH sid + cH sid * cnt) : Nat) : Int)
    · refine ⟨mkEntry hH cH sid cnt nextRow cum, ?_, List.mem_cons_self _ _, ?_, ?_⟩
      · rw [show buildLookup hH cH ((sid, cnt) :: rest) nextRow cum =
            mkEntry hH cH sid cnt nextRow cum ::
              buildLookup hH cH rest (nextRow + cnt + 1)
                (cum + (hH sid + cH sid * cnt)) from rfl]
        exact List.find?_cons_of_pos _ (by simp [mkEntry]; omega)
      · simp [mkEntry]; omega
      · simp [mkEntry]; omega
    · cases rest with
      | nil =>
        exfalso
        apply hy
        simp [blobHeight] at hhi
        omega
      | cons q rest2 =>
        obtain ⟨s, hfind, hmem, h1, h2⟩ :=
          ih (nextRow + cnt + 1) (cum + (hH sid + cH sid * cnt)) (by simp)
            (by push_cast at hy ⊢; omega)
            (by simp only [blobHeight] at hhi ⊢; push_cast at hhi ⊢; omega)
        refine ⟨s, ?_, List.mem_cons_of_mem _ hmem, h1, h2⟩
        rw [show buildLookup hH cH ((sid, cnt) :: q :: rest2) nextRow cum =
            mkEntry hH cH sid cnt nextRow cum ::
              buildLookup hH cH (q :: rest2) (nextRow + cnt + 1)
                (cum + (hH sid + cH sid * cnt)) from rfl]
        rw [List.find?_cons_of_neg _ (by simp [mkEntry]; omega)]
        exact hfind

/-- On a built, nonempty data source getRowAtHeight always succeeds and
returns a valid row index, for every offset. -/
theorem getRowAtHeight_some_lt (hH cH : String → Nat) (blob : List (String × Nat))
    (hne : blob ≠ []) (y : Int) :
    ∃ r, (cloneWithCellsAndSections hH cH blob).getRowAtHeight y = some r ∧
      r < (cloneWithCellsAndSections hH cH blob).getRowCount := by
  have hrc : (cloneWithCellsAndSections hH cH blob).getRowCount = rowsLen blob :=
    getRowCount_clone hH cH blob
  have hrc1 : 1 ≤ rowsLen blob := rowsLen_pos blob hne
  have htot : (cloneWithCellsAndSections hH cH blob).getTotalHeight = blobHeight hH cH blob :=
    getTotalHeight_clone hH cH blob
  by_cases hneg : y < 0
  · exact ⟨0, by rw [DataSource.getRowAtHeight, if_pos hneg], by omega⟩
  by_cases hbig : y > ((cloneWithCellsAndSections hH cH blob).getTotalHeight : Int)
  · refine ⟨(cloneWithCellsAndSections hH cH blob).getRowCount - 1, ?_, by omega⟩
    rw [DataSource.getRowAtHeight, if_neg hneg, if_pos hbig]
  · obtain ⟨s, hfind, hmem, h1, h2⟩ :=
      buildLookup_find?_cover hH cH y blob 0 0 hne (by omega)
        (by rw [htot] at hbig; push_cast at hbig ⊢; omega)
    obtain ⟨he1, he2, he3, _, he5, _, _⟩ := buildLookup_entry hH cH blob 0 0 s hmem
    rw [DataSource.getRowAtHeight, if_neg hneg, if_neg hbig]
    rw [show (cloneWithCellsAndSections hH cH blob).lookup = buildLookup hH cH blob 0 0 from rfl]
    rw [hfind]
    by_cases hhdr : y - (s.startY : Int) ≤ (s.sectionHeaderHeight : Int)
    · exact ⟨s.rangeStart, by simp [hhdr], by omega⟩
    · refine ⟨s.rangeStart + (y - (s.startY : Int) - (s.sectionHeaderHeight : Int)).toNat /
        s.cellHeight, by simp [hhdr], ?_⟩
      have hle : (y - (s.startY : Int) - (s.sectionHeaderHeight : Int)).toNat ≤
          s.cellHeight * (s.rangeEnd - s.rangeStart) := by omega
      have hdiv : (y - (s.startY : Int) - (s.sectionHeaderHeight : Int)).toNat /
          s.cellHeight ≤ s.rangeEnd - s.rangeStart :=
        Nat.div_le_of_le_mul hle
      omega

/-- A header row in the flattened array comes from a section of the
blob. -/
theorem buildDataSource_header_mem : ∀ (blob : List (String × Nat)) (sid : String),
    Row.header sid ∈ buildDataSource blob → ∃ cnt, (sid, cnt) ∈ blob := by
  intro blob
  induction blob with
  | nil => intro sid h; simp [buildDataSource] at h
  | cons p rest ih =>
    rcases p with ⟨sid0, cnt0⟩
    intro sid h
    simp only [buildDataSource, cellsFor, List.mem_cons, List.mem_append, List.mem_map,
      List.mem_range] at h
    rcases h with h | h | h
    · obtain rfl : sid = sid0 := by cases h; rfl
      exact ⟨cnt0, List.mem_cons_self _ _⟩
    · obtain ⟨a, _, ha⟩ := h
      cases ha
    · obtain ⟨cnt, hcnt⟩ := ih sid h
      exact ⟨cnt, List.mem_cons_of_mem _ hcnt⟩

/-- Every section of the blob owns a lookup entry carrying its id. -/
theorem buildLookup_sectionId_mem (hH cH : String → Nat) :
    ∀ (blob : List (String × Nat)) (sid : String) (cnt nextRow cum : Nat),
      (sid, cnt) ∈ blob →
      ∃ s ∈ buildLookup hH cH blob nextRow cum, s.sectionId = sid := by
  intro blob
  induction blob with
  | nil => intro sid cnt _ _ h; simp at h
  | cons p rest ih =>
    rcases p with ⟨sid0, cnt0⟩
    intro sid cnt nextRow cum h
    rcases List.mem_cons.mp h with h0 | h1
    · obtain ⟨rfl, rfl⟩ : sid = sid0 ∧ cnt = cnt0 := by cases h0; exact ⟨rfl, rfl⟩
      exact ⟨mkEntry hH cH sid cnt nextRow cum, List.mem_cons_self _ _, rfl⟩
    · obtain ⟨s, hs, hsid⟩ := ih sid cnt (nextRow + cnt0 + 1) (cum + (hH sid0 + cH sid0 * cnt0)) h1
      exact ⟨s, List.mem_cons_of_mem _ hs, hsid⟩

/-- Coverage of the row-index space: every valid row index lies inside
the row range of some lookup entry. -/
theorem buildLookup_range_cover (hH cH : String → Nat) :
    ∀ (blob : List (String × Nat)) (i nextRow cum : Nat),
      i < rowsLen blob →
      ∃ s ∈ buildLookup hH cH blob nextRow cum,
        s.rangeStart ≤ nextRow + i ∧ nextRow + i ≤ s.rangeEnd := by
  intro blob
  induction blob with
  | nil => intro i _ _ h; simp [rowsLen] at h
  | cons p rest ih =>
    rcases p with ⟨sid, cnt⟩
    intro i nextRow cum hi
    by_cases hc : i ≤ cnt
    · refine ⟨mkEntry hH cH sid cnt nextRow cum, List.mem_cons_self _ _, ?_, ?_⟩ <;>
        simp [mkEntry] <;> omega
    · obtain ⟨s, hmem, h1, h2⟩ :=
        ih (i - (cnt + 1)) (nextRow + cnt + 1) (cum + (hH sid + cH sid * cnt))
          (by simp [rowsLen] at hi; omega)
      exact ⟨s, List.mem_cons_of_mem _ hmem, by omega, by omega⟩

/-- On a built data source getRowHeight succeeds at every valid row
index. -/
theorem getRowHeight_some (hH cH : String → Nat) (blob : List (String × Nat)) (i : Nat)
    (hi : i < (cloneWithCellsAndSections hH cH blob).getRowCount) :
    ∃ rh, (cloneWithCellsAndSections hH cH blob).getRowHeight i = some rh := by
  have hlen : i < (buildDataSource blob).length := hi
  rcases hds : (buildDataSource blob).get? i with _ | r
  · rw [List.get?_eq_none] at hds
    omega
  · have hget : (cloneWithCellsAndSections hH cH blob).dataSource.get? i = some r := hds
    cases r with
    | header sid =>
      simp only [DataSource.getRowHeight, hget]
      have hmem : Row.header sid ∈ buildDataSource blob := List.get?_mem hds
      obtain ⟨cnt, hcnt⟩ := buildDataSource_header_mem blob sid hmem
      obtain ⟨s, hsmem, hsid⟩ := buildLookup_sectionId_mem hH cH blob sid cnt 0 0 hcnt
      have hsome : ((cloneWithCellsAndSections hH cH blob).lookup.find?
          (fun s => s.sectionId == sid)).isSome :=
        find?_isSome_of_exists _ _ ⟨s, hsmem, by simp [hsid]⟩
      rcases hv : (cloneWithCellsAndSections hH cH blob).lookup.find?
          (fun s => s.sectionId == sid) with _ | v
      · rw [hv] at hsome; cases hsome
      · exact ⟨v.sectionHeaderHeight, by simp [DataSource.getSectionHeaderHeight, hv]⟩
    | cell sid idx =>
      simp only [DataSource.getRowHeight, hget]
      have hirt : i < rowsLen blob := by rw [← buildDataSource_length blob]; exact hlen
      obtain ⟨s, hsmem, h1, h2⟩ := buildLookup_range_cover hH cH blob i 0 0 hirt
      have hsome : ((cloneWithCellsAndSections hH cH blob).lookup.find?
          (fun s => decide (s.rangeStart ≤ i) && decide (i ≤ s.rangeEnd))).isSome :=
        find?_isSome_of_exists _ _ ⟨s, hsmem, by simp; omega⟩
      rcases hv : (cloneWithCellsAndSections hH cH blob).lookup.find?
          (fun s => decide (s.rangeStart ≤ i) && decide (i ≤ s.rangeEnd)) with _ | v
      · rw [hv] at hsome; cases hsome
      · exact ⟨v.cellHeight, by simp [DataSource.getCellHeight, DataSource.getParentSection, hv]⟩

/-- Claim C9: round trip — on every built data source and every valid
row index i, the height before row i plus the height of row i plus the
height after row i equals the total height (and both getRowHeight and
getHeightAfterRow are defined at i). -/
theorem c9_round_trip (hH cH : String → Nat) (blob : List (String × Nat)) (i : Nat)
    (hi : i < (cloneWithCellsAndSections hH cH blob).getRowCount) :
    ∃ rh ha,
      (cloneWithCellsAndSections hH cH blob).getRowHeight i = some rh ∧
      (cloneWithCellsAndSections hH cH blob).getHeightAfterRow i = some ha ∧
      ((cloneWithCellsAndSections hH cH blob).getHeightBeforeRow i : Int) + (rh : Int) + ha =
        ((cloneWithCellsAndSections hH cH blob).getTotalHeight : Int) := by
  obtain ⟨rh, hrh⟩ := getRowHeight_some hH cH blob i hi
  refine ⟨rh,
    ((cloneWithCellsAndSections hH cH blob).getTotalHeight : Int) -
      ((cloneWithCellsAndSections hH cH blob).getHeightBeforeRow i : Int) - (rh : Int),
    hrh, ?_, by ring⟩
  simp [DataSource.getHeightAfterRow, hrh]

/-- Claim C9, witness: the round trip evaluated at row 2 of the worked
example. -/
theorem c9_round_trip_witness :
    ∃ rh ha,
      (cloneWithCellsAndSections exampleHeaderHeight exampleCellHeight exampleBlob).getRowHeight 2 =
        some rh ∧
      (cloneWithCellsAndSections exampleHeaderHeight exampleCellHeight
        exampleBlob).getHeightAfterRow 2 = some ha ∧
      ((cloneWithCellsAndSections exampleHeaderHeight exampleCellHeight
          exampleBlob).getHeightBeforeRow 2 : Int) + (rh : Int) + ha =
        ((cloneWithCellsAndSections exampleHeaderHeight exampleCellHeight
          exampleBlob).getTotalHeight : Int) :=
  c9_round_trip exampleHeaderHeight exampleCellHeight exampleBlob 2 (by decide)

/-- Claim C6 (amended): on every built, nonempty data source and for
every scrollY and nonnegative viewport height, computeVisibleRows
returns firstVisible = getRowAtHeight scrollY and lastVisible =
getRowAtHeight (scrollY + viewportHeight) + 1; firstVisible is a valid
row index, but lastVisible is only bounded by rowCount (it equals
rowCount when the viewport reaches the end of the content) — the + 1 is
not clamped back into [0, rowCount). -/
theorem c6_visible_rows (hH cH : String → Nat) (blob : List (String × Nat))
    (hne : blob ≠ []) (scrollY viewportHeight : Int) (hvp : 0 ≤ viewportHeight) :
    ∃ firstVisible lastRaw,
      (cloneWithCellsAndSections hH cH blob).computeVisibleRows scrollY viewportHeight =
        some (firstVisible, lastRaw + 1) ∧
      (cloneWithCellsAndSections hH cH blob).getRowAtHeight scrollY = some firstVisible ∧
      (cloneWithCellsAndSections hH cH blob).getRowAtHeight (scrollY + viewportHeight) =
        some lastRaw ∧
      firstVisible < (cloneWithCellsAndSections hH cH blob).getRowCount ∧
      lastRaw + 1 ≤ (cloneWithCellsAndSections hH cH blob).getRowCount := by
  obtain ⟨fv, h1, h2⟩ := getRowAtHeight_some_lt hH cH blob hne scrollY
  obtain ⟨lr, h3, h4⟩ := getRowAtHeight_some_lt hH cH blob hne (scrollY + viewportHeight)
  exact ⟨fv, lr, by simp [DataSource.computeVisibleRows, h1, h3], h1, h3, h2, by omega⟩

/-- Claim C6, witness: the amended statement evaluated on the worked
example at scrollY 100 with viewport height 50. -/
theorem c6_visible_rows_witness :
    ∃ firstVisible lastRaw,
      (cloneWithCellsAndSections exampleHeaderHeight exampleCellHeight
        exampleBlob).computeVisibleRows 100 50 = some (firstVisible, lastRaw + 1) ∧
      (cloneWithCellsAndSections exampleHeaderHeight exampleCellHeight
        exampleBlob).getRowAtHeight 100 = some firstVisible ∧
      (cloneWithCellsAndSections exampleHeaderHeight exampleCellHeight
        exampleBlob).getRowAtHeight (100 + 50) = some lastRaw ∧
      firstVisible < (cloneWithCellsAndSections exampleHeaderHeight exampleCellHeight
        exampleBlob).getRowCount ∧
      lastRaw + 1 ≤ (cloneWithCellsAndSections exampleHeaderHeight exampleCellHeight
        exampleBlob).getRowCount :=
  c6_visible_rows exampleHeaderHeight exampleCellHeight exampleBlob (by decide) 100 50
    (by decide)

/-- Claim C6, counterexample: on the worked example with scrollY 0 and
viewport height 290 the returned lastVisible is 7, which equals rowCount
and is therefore not a valid row index — the claimed clamping of both
values into [0, rowCount) does not happen. -/
theorem c6_visible_rows_counterexample :
    exampleDS.computeVisibleRows 0 290 = some (0, 7) ∧
    ¬ (7 < exampleDS.getRowCount) := by decide

/-- Entries of the lookup table are ordered: an earlier entry ends at or
before the start of any later entry. -/
theorem buildLookup_get?_ordered (hH cH : String → Nat) :
    ∀ (blob : List (String × Nat)) (j k nextRow cum : Nat) (sj sk : SectionEntry),
      j < k →
      (buildLookup hH cH blob nextRow cum).get? j = some sj →
      (buildLookup hH cH blob nextRow cum).get? k = some sk →
      sj.endY ≤ sk.startY := by
  intro blob
  induction blob with
  | nil => intro j k nextRow cum sj sk _ hj _; simp [buildLookup] at hj
  | cons p rest ih =>
    rcases p with ⟨sid, cnt⟩
    intro j k nextRow cum sj sk hjk hj hk
    rw [show buildLookup hH cH ((sid, cnt) :: rest) nextRow cum =
        mkEntry hH cH sid cnt nextRow cum ::
          buildLookup hH cH rest (nextRow + cnt + 1)
            (cum + (hH sid + cH sid * cnt)) from rfl] at hj hk
    cases j with
    | zero =>
      simp only [List.get?_cons_zero, Option.some.injEq] at hj
      subst hj
      cases k with
      | zero => omega
      | succ k2 =>
        simp only [List.get?_cons_succ] at hk
        have hmem : sk ∈ buildLookup hH cH rest (nextRow + cnt + 1)
            (cum + (hH sid + cH sid * cnt)) := List.get?_mem hk
        have := (buildLookup_entry hH cH rest _ _ sk hmem).2.2.2.2.2.1
        simp only [mkEntry]
        omega
    | succ j2 =>
      cases k with
      | zero => omega
      | succ k2 =>
        simp only [List.get?_cons_succ] at hj hk
        exact ih j2 k2 _ _ sj sk (by omega) hj hk

/-- Consecutive entries of the lookup table are adjacent in both the
pixel space and the row-index space. -/
theorem buildLookup_adjacent (hH cH : String → Nat) :
    ∀ (blob : List (String × Nat)) (k nextRow cum : Nat) (sk sk1 : SectionEntry),
      (buildLookup hH cH blob nextRow cum).get? k = some sk →
      (buildLookup hH cH blob nextRow cum).get? (k + 1) = some sk1 →
      sk1.startY = sk.endY ∧ sk1.rangeStart = sk.rangeEnd + 1 := by
  intro blob
  induction blob with
  | nil => intro k nextRow cum sk sk1 h1 _; simp [buildLookup] at h1
  | cons p rest ih =>
    rcases p with ⟨sid, cnt⟩
    intro k nextRow cum sk sk1 h1 h2
    rw [show buildLookup hH cH ((sid, cnt) :: rest) nextRow cum =
        mkEntry hH cH sid cnt nextRow cum ::
          buildLookup hH cH rest (nextRow + cnt + 1)
            (cum + (hH sid + cH sid * cnt)) from rfl] at h1 h2
    cases k with
    | zero =>
      simp only [List.get?_cons_zero, Option.some.injEq] at h1
      subst h1
      simp only [List.get?_cons_succ] at h2
      cases rest with
      | nil => simp [buildLookup] at h2
      | cons q rest2 =>
        rcases q with ⟨sid2, cnt2⟩
        rw [show buildLookup hH cH ((sid2, cnt2) :: rest2) (nextRow + cnt + 1)
            (cum + (hH sid + cH sid * cnt)) =
            mkEntry hH cH sid2 cnt2 (nextRow + cnt + 1) (cum + (hH sid + cH sid * cnt)) ::
              buildLookup hH cH rest2 (nextRow + cnt + 1 + cnt2 + 1)
                (cum + (hH sid + cH sid * cnt) + (hH sid2 + cH sid2 * cnt2)) from rfl] at h2
        simp only [List.get?_cons_zero, Option.some.injEq] at h2
        subst h2
        exact ⟨rfl, rfl⟩
    | succ k2 =>
      simp only [List.get?_cons_succ] at h1 h2
      exact ih k2 _ _ sk sk1 h1 h2

/-- Claim C10: on every built data source whose sections all have
positive header and cell heights, the boundary offset shared by two
consecutive sections (the endY of section k, which equals the startY of
section k + 1) is resolved by getRowAtHeight inside the earlier section:
the linear scan picks the first section whose closed interval contains
the offset, so the result is the last row of section k — one less than
the header row of section k + 1. -/
theorem c10_section_boundary (hH cH : String → Nat) (blob : List (String × Nat))
    (k : Nat) (sk sk1 : SectionEntry)
    (hpos : ∀ s ∈ (cloneWithCellsAndSections hH cH blob).lookup,
      0 < s.sectionHeaderHeight ∧ 0 < s.cellHeight)
    (hk : (cloneWithCellsAndSections hH cH blob).lookup.get? k = some sk)
    (hk1 : (cloneWithCellsAndSections hH cH blob).lookup.get? (k + 1) = some sk1)
    (hcellsk : sk.rangeStart < sk.rangeEnd) (hcellsk1 : sk1.rangeStart < sk1.rangeEnd) :
    sk1.startY = sk.endY ∧
    (cloneWithCellsAndSections hH cH blob).getRowAtHeight ((sk.endY : Int)) =
      some sk.rangeEnd ∧
    sk.rangeEnd + 1 = sk1.rangeStart := by
  have hL : (cloneWithCellsAndSections hH cH blob).lookup = buildLookup hH cH blob 0 0 := rfl
  rw [hL] at hk hk1 hpos
  obtain ⟨hadj1, hadj2⟩ := buildLookup_adjacent hH cH blob k 0 0 sk sk1 hk hk1
  have hmem : sk ∈ buildLookup hH cH blob 0 0 := List.get?_mem hk
  obtain ⟨he1, he2, he3, _, _, _, he7⟩ := buildLookup_entry hH cH blob 0 0 sk hmem
  obtain ⟨hhdr, hcell⟩ := hpos sk hmem
  have hneblob : blob ≠ [] := by
    intro hnil
    rw [hnil] at hk
    simp [buildLookup] at hk
  have htot : (cloneWithCellsAndSections hH cH blob).getTotalHeight = blobHeight hH cH blob :=
    getTotalHeight_clone hH cH blob
  refine ⟨hadj1, ?_, by omega⟩
  have hfind : (buildLookup hH cH blob 0 0).find?
      (fun t => decide ((t.startY : Int) ≤ (sk.endY : Int)) &&
        decide ((sk.endY : Int) ≤ (t.endY : Int))) = some sk := by
    apply find?_eq_of_earlier_false _ _ k sk hk
    · intro j b hj hjb
      have horder : b.endY ≤ sk.startY :=
        buildLookup_get?_ordered hH cH blob j k 0 0 b sk hj hjb hk
      have : ¬ ((sk.endY : Int) ≤ (b.endY : Int)) := by omega
      simp [this]
    · simp
      omega
  rw [DataSource.getRowAtHeight, if_neg (by omega),
    if_neg (by rw [htot]; omega), hL, hfind]
  have hcnt : sk.rangeEnd - sk.rangeStart ≠ 0 := by omega
  have hrel : ¬ ((sk.endY : Int) - (sk.startY : Int) ≤ (sk.sectionHeaderHeight : Int)) := by
    have : 0 < sk.cellHeight * (sk.rangeEnd - sk.rangeStart) := Nat.mul_pos hcell (by omega)
    omega
  simp only [hrel, if_false]
  have htoNat : ((sk.endY : Int) - (sk.startY : Int) - (sk.sectionHeaderHeight : Int)).toNat =
      sk.cellHeight * (sk.rangeEnd - sk.rangeStart) := by omega
  rw [htoNat, Nat.mul_div_cancel_left _ hcell]
  congr 1
  omega

/-- Claim C10, witness: the boundary between sections A and B of the
worked example — offset 170 resolves to row 3, the last row of section
A, one below the header row 4 of section B. -/
theorem c10_section_boundary_witness :
    ((⟨3, 4, 6, 120, 170, 290, 50, 20, sidB⟩ : SectionEntry).startY =
      (⟨4, 0, 3, 170, 0, 170, 50, 20, sidA⟩ : SectionEntry).endY) ∧
    (cloneWithCellsAndSections exampleHeaderHeight exampleCellHeight
      exampleBlob).getRowAtHeight
        (((⟨4, 0, 3, 170, 0, 170, 50, 20, sidA⟩ : SectionEntry).endY : Int)) =
      some (⟨4, 0, 3, 170, 0, 170, 50, 20, sidA⟩ : SectionEntry).rangeEnd ∧
    (⟨4, 0, 3, 170, 0, 170, 50, 20, sidA⟩ : SectionEntry).rangeEnd + 1 =
      (⟨3, 4, 6, 120, 170, 290, 50, 20, sidB⟩ : SectionEntry).rangeStart :=
  c10_section_boundary exampleHeaderHeight exampleCellHeight exampleBlob 0
    ⟨4, 0, 3, 170, 0, 170, 50, 20, sidA⟩ ⟨3, 4, 6, 120, 170, 290, 50, 20, sidB⟩
    (by decide) (by decide) (by decide) (by decide) (by decide)

/-- Claim C2 (amended): on the worked example data source,
getHeightBeforeRow 4 equals 170, getRowAtHeight 170 resolves to row 3
(the last cell of section A, since the linear scan finds the closed
interval of section A first), getRowAtHeight 0 equals row 0, and
getTotalHeight equals 290. -/
theorem c2_geometry_example :
    exampleDS.getHeightBeforeRow 4 = 170 ∧
    exampleDS.getRowAtHeight 170 = some 3 ∧
    exampleDS.getRowAtHeight 0 = some 0 ∧
    exampleDS.getTotalHeight = 290 := by decide

/-- Claim C2, counterexample: on the worked example getRowAtHeight 170
does not return row 4 (the header of section B) as the claim states; it
returns row 3. -/
theorem c2_geometry_example_counterexample :
    exampleDS.getRowAtHeight 170 ≠ some 4 := by decide

/-- Claim C4 (amended): getHeightBetweenRows i ii always returns the
difference getHeightBeforeRow ii - getHeightBeforeRow (i + 1); for
reversed bounds (ii < i) the warning is reported, but no
InvalidRangeError is raised and the computation still returns the
difference. -/
theorem c4_height_between (ds : DataSource) (i ii : Nat) :
    (i < ii → ds.getHeightBetweenRows i ii =
      (false, (ds.getHeightBeforeRow ii : Int) - (ds.getHeightBeforeRow (i + 1) : Int))) ∧
    (ii < i → ds.getHeightBetweenRows i ii =
      (true, (ds.getHeightBeforeRow ii : Int) - (ds.getHeightBeforeRow (i + 1) : Int))) := by
  constructor <;> intro h <;>
    simp [DataSource.getHeightBetweenRows, decide_eq_true_eq, decide_eq_false_iff_not] <;>
    omega

/-- Claim C4, witness: the amended statement evaluated on the worked
example, once with ordered bounds and once with reversed bounds. -/
theorem c4_height_between_witness :
    exampleDS.getHeightBetweenRows 0 4 =
      (false, (exampleDS.getHeightBeforeRow 4 : Int) - (exampleDS.getHeightBeforeRow 1 : Int)) ∧
    exampleDS.getHeightBetweenRows 3 1 =
      (true, (exampleDS.getHeightBeforeRow 1 : Int) - (exampleDS.getHeightBeforeRow 4 : Int)) :=
  ⟨(c4_height_between exampleDS 0 4).1 (by decide),
    (c4_height_between exampleDS 3 1).2 (by decide)⟩

/-- Claim C4, counterexample: with reversed bounds (i = 3, ii = 1) the
source emits the warning and still returns the value -150; the call does
not fail with an InvalidRangeError. -/
theorem c4_height_between_counterexample :
    exampleDS.getHeightBetweenRows 3 1 = (true, -150) := by decide

/-- Claim C5 (amended): getRowData returns the row stored at index i for
every i in [0, rowCount), and returns undefined (none), a sentinel value
rather than a raised IndexError, for every index outside that range. -/
theorem c5_get_row_data (ds : DataSource) (i : Int) :
    ((i < 0 ∨ (ds.getRowCount : Int) ≤ i) → ds.getRowData i = none) ∧
    (0 ≤ i → i < (ds.getRowCount : Int) →
      ∃ r, ds.getRowData i = some r ∧ ds.dataSource.get? i.toNat = some r) := by
  constructor
  · rintro (h | h)
    · simp [DataSource.getRowData, h]
    · rw [DataSource.getRowData, if_neg (by simp [DataSource.getRowCount] at h ⊢; omega)]
      rw [List.get?_eq_none]
      simp [DataSource.getRowCount] at h
      omega
  · intro h0 h1
    rw [DataSource.getRowData, if_neg (by omega)]
    have hlen : i.toNat < ds.dataSource.length := by
      simp [DataSource.getRowCount] at h1
      omega
    exact ⟨ds.dataSource.get ⟨i.toNat, hlen⟩, List.get?_eq_get hlen, List.get?_eq_get hlen⟩

/-- Claim C5, witness: the amended statement evaluated on the worked
example, once out of range and once in range. -/
theorem c5_get_row_data_witness :
    exampleDS.getRowData 8 = none ∧
    (∃ r, exampleDS.getRowData 0 = some r ∧ exampleDS.dataSource.get? (0 : Int).toNat = some r) :=
  ⟨(c5_get_row_data exampleDS 8).1 (Or.inr (by decide)),
    (c5_get_row_data exampleDS 0).2 (by decide) (by decide)⟩

/-- Claim C5, counterexample: index 7 on the worked example (rowCount 7)
is out of range, yet getRowData returns the sentinel undefined (none)
instead of failing with an IndexError. -/
theorem c5_get_row_data_counterexample :
    exampleDS.getRowData 7 = none := by decide

/-- Claim C7 (amended): when the list is long enough that no end-of-list
clamping applies, the initial window committed at construction time and
the buffer window set by a section jump both span initialNumToRender + 1
rows (the start row through start plus initialNumToRender inclusive),
not initialNumToRender rows. -/
theorem c7_initial_num_to_render (ds : DataSource) (init : Int)
    (h0 : 0 ≤ init) (hlong : init ≤ (ds.getRowCount : Int) - 1) :
    ((ds.initialWindow init).2 - (ds.initialWindow init).1 + 1 = init + 1) ∧
    (∀ (b : Bool) (sectionId : String) (jr : JumpResult) (row startY : Nat),
      ds.scrollToSectionBuffered b init sectionId = some jr →
      ds.getFirstRowOfSection sectionId = some (row, startY) →
      (row : Int) + init ≤ (ds.getRowCount : Int) - 1 →
      jr.bufferLastRow - jr.bufferFirstRow + 1 = init + 1) := by
  constructor
  · simp only [DataSource.initialWindow]
    omega
  · intro b sectionId jr row startY hjr hfirst hroom
    rw [DataSource.scrollToSectionBuffered] at hjr
    by_cases hb : (!b && ds.hasSection sectionId) = true
    · rw [if_pos hb, hfirst] at hjr
      simp only [Option.some.injEq] at hjr
      subst hjr
      simp only
      split_ifs <;> omega
    · rw [if_neg hb] at hjr
      exact absurd hjr (by simp)

/-- Claim C7, witness: the amended statement evaluated on the worked
example with initialNumToRender 2 — the initial window and the jump
window for section A both span 3 rows. -/
theorem c7_initial_num_to_render_witness :
    ((exampleDS.initialWindow 2).2 - (exampleDS.initialWindow 2).1 + 1 = 2 + 1) ∧
    ((⟨0, 2, 0, false⟩ : JumpResult).bufferLastRow -
      (⟨0, 2, 0, false⟩ : JumpResult).bufferFirstRow + 1 = 2 + 1) :=
  ⟨(c7_initial_num_to_render exampleDS 2 (by decide) (by decide)).1,
    (c7_initial_num_to_render exampleDS 2 (by decide) (by decide)).2 false sidA
      ⟨0, 2, 0, false⟩ 0 0 (by decide) (by decide) (by decide)⟩

/-- Claim C7, counterexample: on the 100-row data source with
initialNumToRender 8 the constructor commits the window from row 0 to
row 8, which contains 9 rows, not 8, even though no end-of-list clamping
applies (8 is well below the last row 99). -/
theorem c7_initial_num_to_render_counterexample :
    exampleDS100.initialWindow 8 = (0, 8) ∧
    ((exampleDS100.initialWindow 8).2 - (exampleDS100.initialWindow 8).1 + 1 ≠ 8) := by decide

/-- Claim C8: on the worked example, scrollToSectionBuffered for section
B from the idle state with initialNumToRender 1 commits the buffer
window rows 4 through 5 and moves the viewport to offset 170 with
animation disabled; and in general the buffer window ends at the first
row of the section plus initialNumToRender clamped to the last row of
the list, the viewport target is the section start offset, the move is
unanimated, the window starts at the first row of the section while the
clamp does not bite, and the start row is pulled back to
max 0 (bufferLastRow - initialNumToRender) whenever the clamped last row
coincides with the last row of the list. -/
theorem c8_scroll_to_section :
    exampleDS.scrollToSectionBuffered false 1 sidB = some ⟨4, 5, 170, false⟩ ∧
    (∀ (ds : DataSource) (b : Bool) (init : Int) (sectionId : String) (jr : JumpResult)
      (row startY : Nat),
      ds.scrollToSectionBuffered b init sectionId = some jr →
      ds.getFirstRowOfSection sectionId = some (row, startY) →
      jr.scrollTargetY = startY ∧ jr.animated = false ∧
      jr.bufferLastRow = min ((ds.getRowCount : Int) - 1) ((row : Int) + init) ∧
      ((row : Int) + init ≤ (ds.getRowCount : Int) - 1 → jr.bufferFirstRow = (row : Int)) ∧
      ((ds.getRowCount : Int) - 1 ≤ (row : Int) + init →
        jr.bufferFirstRow = max 0 (jr.bufferLastRow - init))) := by
  constructor
  · decide
  · intro ds b init sectionId jr row startY hjr hfirst
    rw [DataSource.scrollToSectionBuffered] at hjr
    by_cases hb : (!b && ds.hasSection sectionId) = true
    · rw [if_pos hb, hfirst] at hjr
      simp only [Option.some.injEq] at hjr
      subst hjr
      refine ⟨rfl, rfl, rfl, ?_, ?_⟩ <;> intro h <;> simp only <;> split_ifs <;> omega
    · rw [if_neg hb] at hjr
      exact absurd hjr (by simp)

/-- Claim C8, witness: the general part of the claim evaluated at the
worked example jump to section B with initialNumToRender 1. -/
theorem c8_scroll_to_section_witness :
    (⟨4, 5, 170, false⟩ : JumpResult).scrollTargetY = 170 ∧
    (⟨4, 5, 170, false⟩ : JumpResult).bufferFirstRow = ((4 : Nat) : Int) := by
  have h := c8_scroll_to_section.2 exampleDS false 1 sidB ⟨4, 5, 170, false⟩ 4 170
    (by decide) (by decide)
  exact ⟨h.1, h.2.2.2.1 (by decide)⟩

/-- Claim C3: when scrolling down computeRowsToRender returns lastRow
equal to min(targetLastRow, lastRendered + pageSize), where
targetLastRow is the minimum of totalRows - 1, lastVisible +
numToRenderAhead - numToRenderBehind, and firstVisible + numRendered +
numToRenderAhead - numToRenderBehind with numRendered = lastRendered -
firstRendered + 1; then firstRow = targetFirstRow = max(0, firstVisible
- numToRenderBehind, lastRow - maxNumToRender) computed from the
just-computed lastRow and not step-bounded by pageSize.  On the worked
configuration the step from window 0..10 with visible rows 8..10 lands
exactly on the target window 6..12. -/
theorem c3_down_step :
    (∀ o : ComputeOptions, o.scrollDirection = ScrollDirection.down →
      o.numToRenderAhead < o.maxNumToRender →
      computeRowsToRender o =
        some
          ⟨max 0 (max (o.firstVisible - o.numToRenderBehind)
              (min
                (min (o.totalRows - 1)
                  (min (o.lastVisible + o.numToRenderAhead - o.numToRenderBehind)
                    (o.firstVisible + (o.lastRendered - o.firstRendered + 1) +
                      o.numToRenderAhead - o.numToRenderBehind)))
                (o.lastRendered + o.pageSize) - o.maxNumToRender)),
            min
              (min (o.totalRows - 1)
                (min (o.lastVisible + o.numToRenderAhead - o.numToRenderBehind)
                  (o.firstVisible + (o.lastRendered - o.firstRendered + 1) +
                    o.numToRenderAhead - o.numToRenderBehind)))
              (o.lastRendered + o.pageSize),
            max 0 (max (o.firstVisible - o.numToRenderBehind)
              (min
                (min (o.totalRows - 1)
                  (min (o.lastVisible + o.numToRenderAhead - o.numToRenderBehind)
                    (o.firstVisible + (o.lastRendered - o.firstRendered + 1) +
                      o.numToRenderAhead - o.numToRenderBehind)))
                (o.lastRendered + o.pageSize) - o.maxNumToRender)),
            min (o.totalRows - 1)
              (min (o.lastVisible + o.numToRenderAhead - o.numToRenderBehind)
                (o.firstVisible + (o.lastRendered - o.firstRendered + 1) +
                  o.numToRenderAhead - o.numToRenderBehind))⟩) ∧
    computeRowsToRender ⟨ScrollDirection.down, 8, 10, 0, 10, 5, 20, 4, 2, 100⟩ =
      some ⟨6, 12, 6, 12⟩ := by
  constructor
  · intro o hdir hinv
    simp [computeRowsToRender, computeFirstRow, computeLastRow, hdir, if_pos hinv]
  · decide

/-- Claim C3, witness: the down-direction formula evaluated at a small
concrete configuration. -/
theorem c3_down_step_witness :
    computeRowsToRender ⟨ScrollDirection.down, 0, 0, 0, 0, 5, 20, 4, 2, 10⟩ =
      some ⟨0, 2, 0, 2⟩ :=
  (c3_down_step.1 ⟨ScrollDirection.down, 0, 0, 0, 0, 5, 20, 4, 2, 10⟩ rfl
    (by decide)).trans (by decide)

/-- Claim C1 (amended): under the stated preconditions the recompute
result exists and satisfies firstRow ≥ 0 and lastRow ≤ totalRows - 1 for
both scroll directions, but the window budget bound is lastRow -
firstRow + 1 ≤ maxNumToRender + 1: the computed window may exceed
maxNumToRender by exactly one row. -/
theorem c1_window_budget (o : ComputeOptions)
    (hA : o.numToRenderAhead < o.maxNumToRender)
    (hB : o.numToRenderBehind < o.maxNumToRender)
    (hw0 : 0 ≤ o.firstRendered)
    (hw1 : o.firstRendered ≤ o.lastRendered + 1)
    (hw2 : o.lastRendered + 1 ≤ o.totalRows)
    (hw3 : o.lastRendered - o.firstRendered + 1 ≤ o.maxNumToRender)
    (hv0 : 0 ≤ o.firstVisible) (hv1 : o.firstVisible ≤ o.lastVisible)
    (hv2 : o.lastVisible ≤ o.totalRows)
    (ht : 0 < o.totalRows) :
    ∃ r, computeRowsToRender o = some r ∧
      r.lastRow - r.firstRow + 1 ≤ o.maxNumToRender + 1 ∧
      0 ≤ r.firstRow ∧ r.lastRow ≤ o.totalRows - 1 := by
  rcases hdir : o.scrollDirection with _ | _ <;>
    simp only [computeRowsToRender, computeFirstRow, computeLastRow, hdir, if_pos hA] <;>
    refine ⟨_, rfl, ?_, ?_, ?_⟩ <;>
    simp only [min_def, max_def] <;> split_ifs <;> omega

/-- Claim C1, witness: the amended bound evaluated at the worked
configuration scrolling down from window 0..10 with visible rows
8..10. -/
theorem c1_window_budget_witness :
    ∃ r, computeRowsToRender ⟨ScrollDirection.down, 8, 10, 0, 10, 5, 20, 4, 2, 100⟩ = some r ∧
      r.lastRow - r.firstRow + 1 ≤ 20 + 1 ∧ 0 ≤ r.firstRow ∧ r.lastRow ≤ 100 - 1 :=
  c1_window_budget ⟨ScrollDirection.down, 8, 10, 0, 10, 5, 20, 4, 2, 100⟩
    (by decide) (by decide) (by decide) (by decide) (by decide) (by decide)
    (by decide) (by decide) (by decide) (by decide)

/-- Claim C1, counterexample: with maxNumToRender 20, numToRenderAhead
19, numToRenderBehind 0, pageSize 20, totalRows 100, rendered window
11..30 (20 rows, within budget) and visible rows 30..31 while scrolling
down — every precondition of the claim holds — the recompute returns the
window 30..50, which spans 21 rows and exceeds maxNumToRender. -/
theorem c1_window_budget_counterexample :
    computeRowsToRender ⟨ScrollDirection.down, 30, 31, 11, 30, 20, 20, 19, 0, 100⟩ =
      some ⟨30, 50, 30, 50⟩ ∧
    ¬ ((50 : Int) - 30 + 1 ≤ 20) := by decide

end AtoZ
